import Mathlib

/-!
Verification of the task/container resolution core of the ECS shell utility
(src/aws/ecs-shell.py). The Python functions find_task (with its inner
get_start_time) and find_container_name are embedded as Lean functions.
Python datetime values and the standard-library parser
datetime.datetime.fromisoformat are modelled explicitly, including the
TypeError that Python raises when an offset-naive and an offset-aware
datetime are compared.
-/

/-- Model of a Python datetime.datetime value: proleptic-Gregorian calendar
fields plus an optional UTC offset in minutes. tz = none models an
offset-naive value, tz = some k models an offset-aware value whose utcoffset
is k minutes. -/
structure PyDateTime where
  year : Nat
  month : Nat
  day : Nat
  hour : Nat
  minute : Nat
  second : Nat
  microsecond : Nat
  tz : Option Int
deriving DecidableEq, Repr

/-- Model of Python datetime.datetime.min: year 1, month 1, day 1, midnight,
offset-naive. -/
def dt_min : PyDateTime := ⟨1, 1, 1, 0, 0, 0, 0, none⟩

/-- Leap-year rule of the proleptic Gregorian calendar used by Python
datetime. -/
def isLeap (y : Nat) : Bool := y % 4 == 0 && (y % 100 != 0 || y % 400 == 0)

/-- Number of days in a month; Python datetime validates the day field
against this. -/
def daysInMonth (y m : Nat) : Nat :=
  if m = 2 then (if isLeap y then 29 else 28)
  else if m = 4 ∨ m = 6 ∨ m = 9 ∨ m = 11 then 30
  else 31

/-- Days in all years strictly before year y (building block of Python
date.toordinal). -/
def daysBeforeYear (y : Nat) : Nat :=
  (y - 1) * 365 + (y - 1) / 4 - (y - 1) / 100 + (y - 1) / 400

/-- Days in the months of year y strictly before month m. -/
def daysBeforeMonth (y m : Nat) : Nat :=
  (List.range (m - 1)).foldl (fun acc k => acc + daysInMonth y (k + 1)) 0

/-- Python date.toordinal: the day number in the proleptic Gregorian
calendar, with 0001-01-01 being day 1. -/
def toordinal (d : PyDateTime) : Nat :=
  daysBeforeYear d.year + daysBeforeMonth d.year d.month + d.day

/-- Position of a datetime on an absolute microsecond axis, subtracting the
UTC offset for aware values (offset 0 for naive values). Python compares two
naive datetimes field-lexicographically and two aware datetimes as absolute
instants; on the validated field ranges both orders agree with the order of
this key. -/
def absUS (d : PyDateTime) : Int :=
  ((((toordinal d : Int) * 24 + d.hour) * 60 + d.minute - d.tz.getD 0) * 60 + d.second)
    * 1000000 + d.microsecond

/-- Errors escaping find_task: the two ValueError sites of the source, and
the TypeError that Python raises inside max when it compares an offset-naive
with an offset-aware datetime. The string arguments are the dynamic parts of
the Python error messages (requested id, joined sorted id list). -/
inductive TaskErr where
  | noRunningTasks
  | taskNotFound (requested : String) (availableJoined : String)
  | typeError
deriving DecidableEq, Repr

/-- Python comparison keyval > maxval on two datetimes, as used by max:
raises TypeError when exactly one operand is offset-aware, otherwise
compares the two values. -/
def dtGT (a b : PyDateTime) : Except TaskErr Bool :=
  if a.tz.isSome = b.tz.isSome then .ok (decide (absUS b < absUS a))
  else .error .typeError

/-- Decimal value of a digit character. -/
def dval (c : Char) : Nat := c.toNat - 48

/-- Numeric value of a two-digit field, or none if either character is not a
decimal digit. -/
def digit2 (a b : Char) : Option Nat :=
  if a.isDigit && b.isDigit then some (dval a * 10 + dval b) else none

/-- Modelled from CPython datetime.fromisoformat: a UTC offset suffix of the
form sign HH:MM; the timezone constructor then requires the magnitude to be
smaller than 24 hours. Offsets carrying a seconds field are not modelled; no
claim depends on them. -/
def parseOffsetTail (sign : Int) (cs : List Char) : Option Int :=
  match cs with
  | [h1, h2, ':', m1, m2] =>
    match digit2 h1 h2, digit2 m1 m2 with
    | some hh, some mm =>
      if hh * 60 + mm < 1440 then some (sign * (hh * 60 + mm)) else none
    | _, _ => none
  | _ => none

/-- End of the time string: either nothing, or a UTC offset introduced by an
explicit sign. -/
def parseOffsetOrEnd (cs : List Char) : Option (Option Int) :=
  match cs with
  | [] => some none
  | '+' :: rest => (parseOffsetTail 1 rest).map some
  | '-' :: rest => (parseOffsetTail (-1) rest).map some
  | _ => none

/-- Fractional seconds: exactly three or exactly six digits (the documented
fromisoformat rule), returned as microseconds together with the remaining
characters. -/
def parseFrac (cs : List Char) : Option (Nat × List Char) :=
  match cs with
  | a :: b :: c :: d :: e :: f :: rest =>
    if (a.isDigit && b.isDigit && c.isDigit) && (d.isDigit && e.isDigit && f.isDigit) then
      some (dval a * 100000 + dval b * 10000 + dval c * 1000
            + dval d * 100 + dval e * 10 + dval f, rest)
    else if a.isDigit && b.isDigit && c.isDigit then
      some ((dval a * 100 + dval b * 10 + dval c) * 1000, d :: e :: f :: rest)
    else none
  | a :: b :: c :: rest =>
    if a.isDigit && b.isDigit && c.isDigit then
      some ((dval a * 100 + dval b * 10 + dval c) * 1000, rest)
    else none
  | _ => none

/-- Modelled from CPython datetime.fromisoformat: a time of the form
HH[:MM[:SS[.fff[fff]]]] followed by an optional UTC offset, with the range
checks the time constructor performs. Returns hour, minute, second,
microsecond and offset. -/
def parseTimeTail (cs : List Char) : Option (Nat × Nat × Nat × Nat × Option Int) :=
  match cs with
  | h1 :: h2 :: rest =>
    match digit2 h1 h2 with
    | none => none
    | some hh =>
      if 24 ≤ hh then none else
      match rest with
      | ':' :: m1 :: m2 :: rest2 =>
        match digit2 m1 m2 with
        | none => none
        | some mm =>
          if 60 ≤ mm then none else
          match rest2 with
          | ':' :: s1 :: s2 :: rest3 =>
            match digit2 s1 s2 with
            | none => none
            | some ss =>
              if 60 ≤ ss then none else
              match rest3 with
              | '.' :: rest4 =>
                match parseFrac rest4 with
                | none => none
                | some (us, rest5) =>
                  (parseOffsetOrEnd rest5).map fun tz => (hh, mm, ss, us, tz)
              | _ => (parseOffsetOrEnd rest3).map fun tz => (hh, mm, ss, 0, tz)
          | _ => (parseOffsetOrEnd rest2).map fun tz => (hh, mm, 0, 0, tz)
      | _ => (parseOffsetOrEnd rest).map fun tz => (hh, 0, 0, 0, tz)
  | _ => none

/-- Modelled from CPython datetime.datetime.fromisoformat, the documented
grammar YYYY-MM-DD[*HH[:MM[:SS[.fff[fff]]]][+HH:MM]] in which * matches any
single separator character, with the range validation the datetime
constructor performs. The textual Z designator accepted by newer interpreter
versions is not modelled: the call sites below never pass a string that
still ends in Z, and a Z in any other position is rejected by every
interpreter version unless it is the single separator character, which the
wildcard already covers. -/
def fromisoChars (cs : List Char) : Option PyDateTime :=
  match cs with
  | y1 :: y2 :: y3 :: y4 :: '-' :: m1 :: m2 :: '-' :: d1 :: d2 :: rest =>
    match digit2 y1 y2, digit2 y3 y4, digit2 m1 m2, digit2 d1 d2 with
    | some yh, some yl, some mo, some dy =>
      let y := yh * 100 + yl
      if y = 0 ∨ mo = 0 ∨ 12 < mo ∨ dy = 0 ∨ daysInMonth y mo < dy then none
      else
        match rest with
        | [] => some ⟨y, mo, dy, 0, 0, 0, 0, none⟩
        | _sep :: trest =>
          match parseTimeTail trest with
          | some (hh, mm, ss, us, tz) => some ⟨y, mo, dy, hh, mm, ss, us, tz⟩
          | none => none
    | _, _, _, _ => none
  | _ => none

/-- Python datetime.datetime.fromisoformat on a string, as modelled above. -/
def fromisoformat (s : String) : Option PyDateTime := fromisoChars s.data

/-- Python str.replace with the one-character pattern Z and the replacement
text +00:00: every occurrence of Z is replaced. -/
def replaceZ : List Char → List Char
  | [] => []
  | c :: cs =>
    if c = 'Z' then '+' :: '0' :: '0' :: ':' :: '0' :: '0' :: replaceZ cs
    else c :: replaceZ cs

/-- Dynamic value found in the startedAt slot of a task: a datetime object,
a string, or a value of any other type (the source handles each shape
separately). -/
inductive StartVal where
  | dt (d : PyDateTime)
  | str (s : String)
  | other
deriving DecidableEq, Repr

/-- Container summary of a running task. Only the name field is ever read by
the selectors; the remaining fields of the source TypedDict are not
consulted. -/
structure Container where
  name : String
deriving DecidableEq, Repr

/-- Container definition inside a task definition: name and essential flag.
The source reads the essential key with default False, so an absent key is
modelled as the value false. -/
structure ContainerDefinition where
  name : String
  essential : Bool
deriving DecidableEq, Repr

/-- Running task (the Task TypedDict of the source; the Lean name avoids the
built-in Task type): resource identifier, optional startedAt value (none models
both an absent key and the value None, which the source treats identically)
and the ordered container summaries. The remaining fields of the source
TypedDict are not read by the selectors. -/
structure EcsTask where
  taskArn : String
  startedAt : Option StartVal
  containers : List Container
deriving DecidableEq, Repr

/-- Task definition: its ordered container definitions. The remaining fields
are not read by the selectors. -/
structure TaskDefinition where
  containerDefinitions : List ContainerDefinition
deriving DecidableEq, Repr

/-- Python truthiness of an Optional[str] argument: None and the empty
string are both falsy. -/
def pyTruthy : Option String → Bool
  | none => false
  | some s => !(s == "")

/-- Helper for Python arn.split("/")[-1]: the characters after the last
slash. -/
def lastSegAux (cur : List Char) : List Char → List Char
  | [] => cur
  | c :: cs => if c = '/' then lastSegAux [] cs else lastSegAux (cur ++ [c]) cs

/-- Python arn.split("/")[-1]: the last slash-separated segment of a
resource identifier. -/
def lastSegment (s : String) : String := ⟨lastSegAux [] s.data⟩

/-- Python sorted on a list of strings: ascending lexicographic order. -/
def sortStrs (l : List String) : List String := l.insertionSort (· ≤ ·)

/-- The joined display form built by the source for its error messages:
", ".join(sorted(xs)). -/
def joinSorted (l : List String) : String := String.intercalate ", " (sortStrs l)

/-- Translation of get_start_time, the key function defined inside
find_task: an absent or None startedAt is the minimum datetime; a datetime
value is used directly; a string has every Z replaced by +00:00 when it ends
with Z and is then parsed, any parse failure degrading to the minimum
datetime; any other type is the minimum datetime. -/
def get_start_time (task : EcsTask) : PyDateTime :=
  match task.startedAt with
  | none => dt_min
  | some (.dt d) => d
  | some (.str s) =>
    let cs := if s.data.getLast? == some 'Z' then replaceZ s.data else s.data
    match fromisoChars cs with
    | some d => d
    | none => dt_min
  | some .other => dt_min

/-- The loop of Python max(tasks, key=get_start_time): the current maximum
is replaced exactly when a later element compares strictly greater; the
datetime comparison can raise TypeError, which aborts the whole call. -/
def maxByLoop (cur : EcsTask) : List EcsTask → Except TaskErr EcsTask
  | [] => .ok cur
  | t :: ts =>
    match dtGT (get_start_time t) (get_start_time cur) with
    | .error e => .error e
    | .ok true => maxByLoop t ts
    | .ok false => maxByLoop cur ts

/-- Translation of find_task: the empty-sequence guard, then the
requested-id linear scan with its not-found error, otherwise the
most-recently-started selection via max. -/
def find_task (tasks : List EcsTask) (task_id : Option String) : Except TaskErr EcsTask :=
  match tasks with
  | [] => .error .noRunningTasks
  | t :: ts =>
    if pyTruthy task_id then
      let tid := task_id.getD ""
      match (t :: ts).find? (fun u => lastSegment u.taskArn == tid) with
      | some u => .ok u
      | none =>
        .error (.taskNotFound tid (joinSorted ((t :: ts).map fun u => lastSegment u.taskArn)))
    else
      maxByLoop t ts

/-- Errors raised by find_container_name: the three ValueError sites of the
source. The string arguments are the dynamic parts of the Python messages
(requested name, joined sorted container-name list). -/
inductive ContainerErr where
  | specifiedNotFound (requested : String) (availableJoined : String)
  | noContainers
  | ambiguous (availableJoined : String)
deriving DecidableEq, Repr

/-- The Python set of container names of the running task, modelled as a
duplicate-free list. -/
def containerNames (task : EcsTask) : List String :=
  (task.containers.map Container.name).dedup

/-- The Python set comprehension of essential definition names intersected
with the live container-name set. -/
def essentialNames (task : EcsTask) (td : TaskDefinition) : List String :=
  ((td.containerDefinitions.filter fun d =>
      d.essential && (containerNames task).contains d.name).map
    ContainerDefinition.name).dedup

/-- Translation of find_container_name: the explicit-request check first,
then the zero- and one-container cases on the container list, then the
essential-set rule, otherwise the ambiguity error. -/
def find_container_name (task : EcsTask) (td : TaskDefinition)
    (specified : Option String) : Except ContainerErr String :=
  if pyTruthy specified then
    let c := specified.getD ""
    if (containerNames task).contains c then .ok c
    else .error (.specifiedNotFound c (joinSorted (containerNames task)))
  else
    match task.containers with
    | [] => .error .noContainers
    | [c] => .ok c.name
    | _ :: _ :: _ =>
      match essentialNames task td with
      | [e] => .ok e
      | _ => .error (.ambiguous (joinSorted (containerNames task)))

/-- Comparison key of a task on the absolute microsecond axis. -/
def taskKey (t : EcsTask) : Int := absUS (get_start_time t)

/-- Whether the normalized timestamp of a task is offset-aware. -/
def taskAware (t : EcsTask) : Bool := (get_start_time t).tz.isSome

/-- Invariant of the Python max loop: when every key lies in one awareness
class, the loop returns a task r that splits the scanned sequence as
l1 ++ r :: l2, with no key above the key of r and every key before r
strictly below it. -/
theorem maxByLoop_spec (ts : List EcsTask) : ∀ cur : EcsTask,
    (∀ u ∈ ts, taskAware u = taskAware cur) →
    ∃ l1 r l2, cur :: ts = l1 ++ r :: l2 ∧ maxByLoop cur ts = .ok r ∧
      (∀ u ∈ cur :: ts, taskKey u ≤ taskKey r) ∧ (∀ u ∈ l1, taskKey u < taskKey r) := by
  induction ts with
  | nil =>
    intro cur _
    refine ⟨[], cur, [], rfl, rfl, ?_, by simp⟩
    intro u hu
    simp only [List.mem_singleton] at hu
    simp [hu]
  | cons t ts ih =>
    intro cur h
    have hat : taskAware t = taskAware cur := h t (List.mem_cons_self t ts)
    have hgt : dtGT (get_start_time t) (get_start_time cur)
        = .ok (decide (taskKey cur < taskKey t)) := by
      simp only [taskAware] at hat
      simp only [dtGT, taskKey, if_pos hat]
    by_cases hlt : taskKey cur < taskKey t
    · have hts : ∀ u ∈ ts, taskAware u = taskAware t := by
        intro u hu; rw [h u (List.mem_cons_of_mem _ hu), hat]
      obtain ⟨l1, r, l2, hsplit, hrun, hle, hstrict⟩ := ih t hts
      have htler : taskKey t ≤ taskKey r := hle t (List.mem_cons_self _ _)
      refine ⟨cur :: l1, r, l2, by simp [hsplit], ?_, ?_, ?_⟩
      · show maxByLoop cur (t :: ts) = .ok r
        unfold maxByLoop
        rw [hgt, decide_eq_true hlt]
        exact hrun
      · intro u hu
        rcases List.mem_cons.mp hu with rfl | hu2
        · exact le_of_lt (lt_of_lt_of_le hlt htler)
        · exact hle u hu2
      · intro u hu
        rcases List.mem_cons.mp hu with rfl | hu2
        · exact lt_of_lt_of_le hlt htler
        · exact hstrict u hu2
    · have hts : ∀ u ∈ ts, taskAware u = taskAware cur := fun u hu =>
        h u (List.mem_cons_of_mem _ hu)
      obtain ⟨l1, r, l2, hsplit, hrun, hle, hstrict⟩ := ih cur hts
      have hrun2 : maxByLoop cur (t :: ts) = .ok r := by
        unfold maxByLoop
        rw [hgt, decide_eq_false hlt]
        exact hrun
      have hcurle : taskKey cur ≤ taskKey r := hle cur (List.mem_cons_self _ _)
      have htle : taskKey t ≤ taskKey cur := not_lt.mp hlt
      cases l1 with
      | nil =>
        obtain ⟨rfl, rfl⟩ : cur = r ∧ ts = l2 := by
          constructor
          · exact (List.cons.injEq _ _ _ _ ▸ hsplit).1
          · exact (List.cons.injEq _ _ _ _ ▸ hsplit).2
        refine ⟨[], cur, t :: ts, rfl, hrun2, ?_, by simp⟩
        intro u hu
        rcases List.mem_cons.mp hu with rfl | hu2
        · exact le_refl _
        rcases List.mem_cons.mp hu2 with rfl | hu3
        · exact htle
        · exact hle u (List.mem_cons_of_mem _ hu3)
      | cons x m =>
        have hx : cur = x ∧ ts = m ++ r :: l2 := by
          have h2 := hsplit
          rw [List.cons_append] at h2
          exact ⟨(List.cons.injEq _ _ _ _ ▸ h2).1, (List.cons.injEq _ _ _ _ ▸ h2).2⟩
        obtain ⟨hx1, hts2⟩ := hx
        subst hx1
        have hcurlt : taskKey cur < taskKey r := hstrict cur (List.mem_cons_self _ _)
        refine ⟨cur :: t :: m, r, l2, by simp [hts2], hrun2, ?_, ?_⟩
        · intro u hu
          rcases List.mem_cons.mp hu with rfl | hu2
          · exact hcurle
          rcases List.mem_cons.mp hu2 with rfl | hu3
          · exact le_trans htle hcurle
          · exact hle u (List.mem_cons_of_mem _ hu3)
        · intro u hu
          rcases List.mem_cons.mp hu with rfl | hu2
          · exact hcurlt
          rcases List.mem_cons.mp hu2 with rfl | hu3
          · exact lt_of_le_of_lt htle hcurlt
          · exact hstrict u (List.mem_cons_of_mem _ hu3)

/-- The sort used for error payloads produces an ascending list. -/
theorem sortStrs_sorted (l : List String) : (sortStrs l).Sorted (· ≤ ·) :=
  List.sorted_insertionSort _ l

/-- The sort used for error payloads permutes its input. -/
theorem sortStrs_perm (l : List String) : (sortStrs l).Perm l :=
  List.perm_insertionSort _ l

/-- A first-match scan returns the marked element when everything before it
fails the predicate. -/
theorem find?_of_split {α : Type} (p : α → Bool) :
    ∀ (l1 : List α) (u : α) (l2 : List α), p u = true → (∀ v ∈ l1, p v = false) →
    (l1 ++ u :: l2).find? p = some u := by
  intro l1
  induction l1 with
  | nil =>
    intro u l2 hu _
    simp [List.find?, hu]
  | cons a l1 ih =>
    intro u l2 hu hall
    have ha : p a = false := hall a (List.mem_cons_self _ _)
    simp only [List.cons_append, List.find?, ha]
    exact ih u l2 hu (fun v hv => hall v (List.mem_cons_of_mem _ hv))

/-- A non-empty string argument is truthy. -/
theorem pyTruthy_some {s : String} (hs : s ≠ "") : pyTruthy (some s) = true := by
  simp [pyTruthy, hs]

/-- With a truthy requested id, find_task reduces to the linear scan with
its not-found error. -/
theorem find_task_cons_truthy (t : EcsTask) (ts : List EcsTask) (i : String) (hi : i ≠ "") :
    find_task (t :: ts) (some i) =
      match (t :: ts).find? (fun u => lastSegment u.taskArn == i) with
      | some u => .ok u
      | none => .error (.taskNotFound i
          (joinSorted ((t :: ts).map fun u => lastSegment u.taskArn))) := by
  simp only [find_task, pyTruthy_some hi, if_true, Option.getD_some]

/-- C1: the spec example, task A with absent startedAt and task B with
startedAt "2024-01-01T00:00:00Z", no requested id. The claim says selection
succeeds and returns B; in the code the normalized key of A is the
offset-naive minimum datetime while the key of B is offset-aware, and the
comparison inside max raises TypeError, so find_task returns no task. This
theorem evaluates the code at the failing input. -/
theorem C1_spec_example_crashes :
    get_start_time ⟨"arn:aws:ecs:eu-west-1:1:task/c/A", none, []⟩ = dt_min ∧
    (get_start_time
      ⟨"arn:aws:ecs:eu-west-1:1:task/c/B", some (.str "2024-01-01T00:00:00Z"), []⟩).tz
        = some 0 ∧
    find_task
      [⟨"arn:aws:ecs:eu-west-1:1:task/c/A", none, []⟩,
       ⟨"arn:aws:ecs:eu-west-1:1:task/c/B", some (.str "2024-01-01T00:00:00Z"), []⟩]
      none = .error .typeError :=
  ⟨rfl, rfl, rfl⟩

/-- C2 counterexample: with task A lacking a start timestamp and task B
carrying an offset-aware datetime object, find_task with no requested id
raises TypeError instead of returning the task with the maximal normalized
timestamp, refuting the claim as stated, which promises a returned task for
every non-empty sequence. -/
theorem C2_mixed_keys_crash :
    find_task
      [⟨"x/A", none, []⟩, ⟨"x/B", some (.dt ⟨2024, 1, 1, 0, 0, 0, 0, some 0⟩), []⟩]
      none = .error .typeError := rfl

/-- C2 as amended: for every non-empty task sequence whose normalized start
timestamps all lie in one awareness class (all offset-naive or all
offset-aware) and no requested id, find_task returns the first task in input
order whose normalized start timestamp is maximal: no key exceeds the
returned key (maximum by strict greater-than) and every earlier task has a
strictly smaller key (first-encountered wins ties, over the sequence order
as given, not re-sorted). -/
theorem C2_first_of_maximal_when_comparable (t : EcsTask) (ts : List EcsTask)
    (h : ∀ u ∈ ts, taskAware u = taskAware t) :
    ∃ l1 r l2, t :: ts = l1 ++ r :: l2 ∧ find_task (t :: ts) none = .ok r ∧
      (∀ u ∈ t :: ts, taskKey u ≤ taskKey r) ∧ (∀ u ∈ l1, taskKey u < taskKey r) :=
  maxByLoop_spec ts t h

/-- C2 witness: the amended theorem applied to a concrete three-task
sequence with offset-naive keys, the later duplicate of the maximal key
losing to the first. -/
theorem C2_first_of_maximal_witness :
    ∃ l1 r l2,
      [(⟨"x/A", some (.str "2024-01-02T00:00:00"), []⟩ : EcsTask),
       ⟨"x/B", none, []⟩, ⟨"x/C", some (.str "2024-01-02T00:00:00"), []⟩]
        = l1 ++ r :: l2 ∧
      find_task
        [⟨"x/A", some (.str "2024-01-02T00:00:00"), []⟩,
         ⟨"x/B", none, []⟩, ⟨"x/C", some (.str "2024-01-02T00:00:00"), []⟩] none = .ok r ∧
      (∀ u ∈ [(⟨"x/A", some (.str "2024-01-02T00:00:00"), []⟩ : EcsTask),
         ⟨"x/B", none, []⟩, ⟨"x/C", some (.str "2024-01-02T00:00:00"), []⟩],
        taskKey u ≤ taskKey r) ∧
      (∀ u ∈ l1, taskKey u < taskKey r) :=
  C2_first_of_maximal_when_comparable
    ⟨"x/A", some (.str "2024-01-02T00:00:00"), []⟩
    [⟨"x/B", none, []⟩, ⟨"x/C", some (.str "2024-01-02T00:00:00"), []⟩]
    (by decide)

/-- The normalization mapping exactly as the claim words it, written for
comparison with get_start_time, which is translated from the source: only
the trailing Z is rewritten to +00:00 before parsing. -/
def get_start_time_claimed (task : EcsTask) : PyDateTime :=
  match task.startedAt with
  | none => dt_min
  | some (.dt d) => d
  | some (.str s) =>
    let cs := if s.data.getLast? == some 'Z'
      then s.data.dropLast ++ ['+', '0', '0', ':', '0', '0'] else s.data
    match fromisoChars cs with
    | some d => d
    | none => dt_min
  | some .other => dt_min

/-- The normalization mapping as amended, written from the amended words:
an absent value is the minimum datetime; a datetime value is used as is;
in a string ending with Z every occurrence of Z is replaced by +00:00 and
the result is parsed, other strings are parsed directly, any parse failure
degrading to the minimum datetime; any other type is the minimum datetime.
Nothing forces the parsed result to be offset-aware. -/
def normalizeStartedAt (v : Option StartVal) : PyDateTime :=
  match v with
  | none => dt_min
  | some (.dt d) => d
  | some (.str s) =>
    if s.data.getLast? == some 'Z' then
      match fromisoformat (String.mk (replaceZ s.data)) with
      | some d => d
      | none => dt_min
    else
      match fromisoformat s with
      | some d => d
      | none => dt_min
  | some .other => dt_min

/-- C3 counterexample. The claim describes the normalization of a string
ending in Z as rewriting the trailing Z to +00:00 and parsing the result as
an offset-aware timestamp. On "2024-01-01Z00:00:00Z" the code replaces every
occurrence of Z (str.replace), producing an unparsable string and hence the
minimum sentinel, while the claimed trailing-only rewrite parses to an
offset-aware timestamp; and on "2024-01-01Z" the code produces an
offset-naive datetime (the + of the replacement acts as the date-time
separator), refuting the offset-aware part of the claim. -/
theorem C3_trailing_only_and_awareness_refuted :
    get_start_time ⟨"t", some (.str "2024-01-01Z00:00:00Z"), []⟩ = dt_min ∧
    get_start_time_claimed ⟨"t", some (.str "2024-01-01Z00:00:00Z"), []⟩
      = ⟨2024, 1, 1, 0, 0, 0, 0, some 0⟩ ∧
    get_start_time ⟨"t", some (.str "2024-01-01Z"), []⟩
      = ⟨2024, 1, 1, 0, 0, 0, 0, none⟩ :=
  ⟨rfl, rfl, rfl⟩

/-- C3 as amended: get_start_time maps an absent startedAt to the minimum
datetime; a datetime value to itself; a string ending in Z to the parse of
the string with every occurrence of Z replaced by +00:00, falling back to
the minimum datetime when unparsable and not necessarily offset-aware; any
other string to its direct parse with the same fallback; and a value of any
other type to the minimum datetime. -/
theorem C3_replace_all_normalization (task : EcsTask) :
    get_start_time task = normalizeStartedAt task.startedAt := by
  obtain ⟨arn, sa, conts⟩ := task
  cases sa with
  | none => rfl
  | some v =>
    cases v with
    | dt d => rfl
    | str s =>
      cases hb : s.data.getLast? == some 'Z' <;>
        simp only [get_start_time, normalizeStartedAt, fromisoformat, hb, if_true, if_false,
          Bool.false_eq_true]
    | other => rfl

/-- C4: for a task whose container-name set has at least two members and no
requested name, find_container_name computes the set of definition names
flagged essential and present in the running task name set (the first
conjunct characterizes that set); if it has exactly one member that name is
returned, and otherwise the call fails with the ambiguity error whose
payload is the lexicographically sorted available names joined for
display. -/
theorem C4_essential_rule (task : EcsTask) (td : TaskDefinition)
    (h2 : 2 ≤ (containerNames task).length) :
    (∀ n, n ∈ essentialNames task td ↔
      (∃ d ∈ td.containerDefinitions, d.name = n ∧ d.essential = true) ∧
        n ∈ containerNames task) ∧
    (∀ e, essentialNames task td = [e] → find_container_name task td none = .ok e) ∧
    ((essentialNames task td).length ≠ 1 →
      find_container_name task td none
        = .error (.ambiguous (joinSorted (containerNames task)))) := by
  obtain ⟨arn, sa, conts⟩ := task
  have hmem : ∀ n, n ∈ essentialNames ⟨arn, sa, conts⟩ td ↔
      (∃ d ∈ td.containerDefinitions, d.name = n ∧ d.essential = true) ∧
        n ∈ containerNames ⟨arn, sa, conts⟩ := by
    intro n
    simp only [essentialNames, List.mem_dedup, List.mem_map, List.mem_filter,
      Bool.and_eq_true]
    constructor
    · rintro ⟨d, ⟨hd, he, hin⟩, rfl⟩
      exact ⟨⟨d, hd, rfl, he⟩, List.elem_iff.mp hin⟩
    · rintro ⟨⟨d, hd, rfl, he⟩, hin⟩
      exact ⟨d, ⟨hd, he, List.elem_iff.mpr hin⟩, rfl⟩
  have hlen : (containerNames ⟨arn, sa, conts⟩).length ≤ conts.length := by
    calc (containerNames ⟨arn, sa, conts⟩).length
        ≤ (conts.map Container.name).length := (List.dedup_sublist _).length_le
      _ = conts.length := List.length_map _ _
  obtain ⟨a, b, rest, rfl⟩ : ∃ a b rest, conts = a :: b :: rest := by
    cases conts with
    | nil =>
      exfalso
      simp [containerNames] at h2
    | cons a tl =>
      cases tl with
      | nil =>
        exfalso
        have h1 : containerNames ⟨arn, sa, [a]⟩ = [a.name] := rfl
        rw [h1] at h2
        simp at h2
      | cons b rest => exact ⟨a, b, rest, rfl⟩
  have hred : find_container_name ⟨arn, sa, a :: b :: rest⟩ td none
      = match essentialNames ⟨arn, sa, a :: b :: rest⟩ td with
        | [e] => .ok e
        | _ => .error (.ambiguous (joinSorted (containerNames ⟨arn, sa, a :: b :: rest⟩))) :=
    rfl
  refine ⟨hmem, ?_, ?_⟩
  · intro e hE
    rw [hred, hE]
  · intro hlen1
    rw [hred]
    cases hE : essentialNames ⟨arn, sa, a :: b :: rest⟩ td with
    | nil => rfl
    | cons e es =>
      cases es with
      | nil => exact absurd (by rw [hE]; rfl) hlen1
      | cons f fs => rfl

/-- C5: when a non-empty container name is requested, find_container_name
returns it unchanged if it is a member of the available name set, never
consulting the essential logic, and otherwise fails with the not-found error
carrying the requested name and the sorted available set joined for display;
the payload list is ascending and a permutation of the available set. -/
theorem C5_explicit_request (task : EcsTask) (td : TaskDefinition) (c : String)
    (hc : c ≠ "") :
    (c ∈ containerNames task → find_container_name task td (some c) = .ok c) ∧
    (c ∉ containerNames task →
      find_container_name task td (some c)
        = .error (.specifiedNotFound c (joinSorted (containerNames task)))) ∧
    (sortStrs (containerNames task)).Sorted (· ≤ ·) ∧
    (sortStrs (containerNames task)).Perm (containerNames task) := by
  refine ⟨?_, ?_, sortStrs_sorted _, sortStrs_perm _⟩
  · intro hin
    simp only [find_container_name, pyTruthy_some hc, if_true, Option.getD_some]
    rw [if_pos (show (containerNames task).contains c = true from List.elem_iff.mpr hin)]
  · intro hout
    simp only [find_container_name, pyTruthy_some hc, if_true, Option.getD_some]
    rw [if_neg (fun hcontra => hout (List.elem_iff.mp hcontra))]

/-- C7: with container names unique within the task and no requested name,
find_container_name fails with the no-containers error when the task has no
containers, and returns the single container name regardless of the task
definition when it has exactly one. -/
theorem C7_zero_or_one_container (task : EcsTask) (td : TaskDefinition)
    (hnd : (task.containers.map Container.name).Nodup) :
    (task.containers = [] → find_container_name task td none = .error .noContainers) ∧
    (∀ c, task.containers = [c] → find_container_name task td none = .ok c.name) := by
  obtain ⟨arn, sa, conts⟩ := task
  constructor
  · intro h
    simp only at h
    subst h
    rfl
  · intro c h
    simp only at h
    subst h
    rfl

/-- C8: find_task invoked on an empty task sequence fails with the
no-running-tasks error for every requested id, present or absent; it never
returns a task. -/
theorem C8_empty_sequence (task_id : Option String) :
    find_task [] task_id = .error .noRunningTasks := rfl

/-- C9: both selectors are deterministic pure functions of their arguments:
two runs on equal inputs produce equal results. Freedom from mutation of the
inputs is reflected by the embedding of both selectors as pure functions,
matching the source, which never writes to its arguments. -/
theorem C9_pure_deterministic (ts1 ts2 : List EcsTask) (i1 i2 : Option String)
    (ta tb : EcsTask) (da db : TaskDefinition) (c1 c2 : Option String)
    (h1 : ts1 = ts2) (h2 : i1 = i2) (h3 : ta = tb) (h4 : da = db) (h5 : c1 = c2) :
    find_task ts1 i1 = find_task ts2 i2 ∧
    find_container_name ta da c1 = find_container_name tb db c2 := by
  subst h1; subst h2; subst h3; subst h4; subst h5
  exact ⟨rfl, rfl⟩

/-- C10: an empty-string request is treated as an absent request by both
selectors: find_task with requested id the empty string behaves exactly as
with no requested id, and find_container_name with requested name the empty
string behaves exactly as with no requested name. -/
theorem C10_empty_string_request :
    (∀ tasks : List EcsTask, find_task tasks (some "") = find_task tasks none) ∧
    (∀ (task : EcsTask) (td : TaskDefinition),
      find_container_name task td (some "") = find_container_name task td none) := by
  constructor
  · intro tasks
    cases tasks <;> rfl
  · intro task td
    rfl

/-- The reduction of find_task under a truthy requested id, stated for any
non-empty sequence. -/
theorem find_task_truthy (tasks : List EcsTask) (i : String) (hi : i ≠ "")
    (hne : tasks ≠ []) :
    find_task tasks (some i) =
      match tasks.find? (fun u => lastSegment u.taskArn == i) with
      | some u => .ok u
      | none => .error (.taskNotFound i
          (joinSorted (tasks.map fun u => lastSegment u.taskArn))) := by
  cases tasks with
  | nil => exact absurd rfl hne
  | cons t ts => exact find_task_cons_truthy t ts i hi

/-- C6: with a non-empty requested id, find_task on an empty sequence fails
with the no-running-tasks error; on any sequence it returns the first task
whose identifier (the last path segment of its resource identifier, exact
string match) equals the requested id; and when no task matches it fails
with the not-found error whose payload is the lexicographically sorted list
of all input identifiers joined for display, that list being ascending and a
permutation of the identifiers. -/
theorem C6_requested_id_scan (tasks : List EcsTask) (i : String) (hi : i ≠ "") :
    (tasks = [] → find_task tasks (some i) = .error .noRunningTasks) ∧
    (∀ l1 u l2, tasks = l1 ++ u :: l2 → lastSegment u.taskArn = i →
      (∀ v ∈ l1, lastSegment v.taskArn ≠ i) → find_task tasks (some i) = .ok u) ∧
    ((∀ u ∈ tasks, lastSegment u.taskArn ≠ i) → tasks ≠ [] →
      find_task tasks (some i)
        = .error (.taskNotFound i (joinSorted (tasks.map fun u => lastSegment u.taskArn))) ∧
      (sortStrs (tasks.map fun u => lastSegment u.taskArn)).Sorted (· ≤ ·) ∧
      (sortStrs (tasks.map fun u => lastSegment u.taskArn)).Perm
        (tasks.map fun u => lastSegment u.taskArn)) := by
  refine ⟨?_, ?_, ?_⟩
  · rintro rfl
    rfl
  · intro l1 u l2 hsplit hu hall
    subst hsplit
    rw [find_task_truthy _ i hi (by simp)]
    rw [find?_of_split _ l1 u l2 (by simp [hu]) ?side]
    case side =>
      intro v hv
      simp only [beq_eq_false_iff_ne, ne_eq]
      exact hall v hv
  · intro hnone hne
    rw [find_task_truthy _ i hi hne]
    have hfind : tasks.find? (fun u => lastSegment u.taskArn == i) = none := by
      rw [List.find?_eq_none]
      intro x hx
      simp only [beq_iff_eq]
      exact hnone x hx
    rw [hfind]
    exact ⟨rfl, sortStrs_sorted _, sortStrs_perm _⟩

/-- C4 witness: two available containers, both marked essential, so the
essential set has two members and the call is ambiguous. -/
theorem C4_essential_rule_witness :
    (∀ n, n ∈ essentialNames ⟨"t", none, [⟨"web"⟩, ⟨"sidecar"⟩]⟩
        ⟨[⟨"web", true⟩, ⟨"sidecar", true⟩]⟩ ↔
      (∃ d ∈ [(⟨"web", true⟩ : ContainerDefinition), ⟨"sidecar", true⟩],
        d.name = n ∧ d.essential = true) ∧
        n ∈ containerNames ⟨"t", none, [⟨"web"⟩, ⟨"sidecar"⟩]⟩) ∧
    (∀ e, essentialNames ⟨"t", none, [⟨"web"⟩, ⟨"sidecar"⟩]⟩
        ⟨[⟨"web", true⟩, ⟨"sidecar", true⟩]⟩ = [e] →
      find_container_name ⟨"t", none, [⟨"web"⟩, ⟨"sidecar"⟩]⟩
        ⟨[⟨"web", true⟩, ⟨"sidecar", true⟩]⟩ none = .ok e) ∧
    ((essentialNames ⟨"t", none, [⟨"web"⟩, ⟨"sidecar"⟩]⟩
        ⟨[⟨"web", true⟩, ⟨"sidecar", true⟩]⟩).length ≠ 1 →
      find_container_name ⟨"t", none, [⟨"web"⟩, ⟨"sidecar"⟩]⟩
        ⟨[⟨"web", true⟩, ⟨"sidecar", true⟩]⟩ none
        = .error (.ambiguous
            (joinSorted (containerNames ⟨"t", none, [⟨"web"⟩, ⟨"sidecar"⟩]⟩)))) :=
  C4_essential_rule ⟨"t", none, [⟨"web"⟩, ⟨"sidecar"⟩]⟩
    ⟨[⟨"web", true⟩, ⟨"sidecar", true⟩]⟩ (by decide)

/-- C5 witness: requesting the name web among available containers web and
sidecar returns web. -/
theorem C5_explicit_request_witness :
    ("web" ∈ containerNames ⟨"t", none, [⟨"web"⟩, ⟨"sidecar"⟩]⟩ →
      find_container_name ⟨"t", none, [⟨"web"⟩, ⟨"sidecar"⟩]⟩ ⟨[]⟩ (some "web")
        = .ok "web") ∧
    ("web" ∉ containerNames ⟨"t", none, [⟨"web"⟩, ⟨"sidecar"⟩]⟩ →
      find_container_name ⟨"t", none, [⟨"web"⟩, ⟨"sidecar"⟩]⟩ ⟨[]⟩ (some "web")
        = .error (.specifiedNotFound "web"
            (joinSorted (containerNames ⟨"t", none, [⟨"web"⟩, ⟨"sidecar"⟩]⟩)))) ∧
    (sortStrs (containerNames ⟨"t", none, [⟨"web"⟩, ⟨"sidecar"⟩]⟩)).Sorted (· ≤ ·) ∧
    (sortStrs (containerNames ⟨"t", none, [⟨"web"⟩, ⟨"sidecar"⟩]⟩)).Perm
      (containerNames ⟨"t", none, [⟨"web"⟩, ⟨"sidecar"⟩]⟩) :=
  C5_explicit_request ⟨"t", none, [⟨"web"⟩, ⟨"sidecar"⟩]⟩ ⟨[]⟩ "web" (by decide)

/-- C6 witness: requesting id C among tasks with identifiers A and B fails
with the sorted identifier list. -/
theorem C6_requested_id_scan_witness :
    (([(⟨"x/A", none, []⟩ : EcsTask), ⟨"x/B", none, []⟩] : List EcsTask) = [] →
      find_task [⟨"x/A", none, []⟩, ⟨"x/B", none, []⟩] (some "C")
        = .error .noRunningTasks) ∧
    (∀ l1 u l2, ([(⟨"x/A", none, []⟩ : EcsTask), ⟨"x/B", none, []⟩] : List EcsTask)
        = l1 ++ u :: l2 → lastSegment u.taskArn = "C" →
      (∀ v ∈ l1, lastSegment v.taskArn ≠ "C") →
      find_task [⟨"x/A", none, []⟩, ⟨"x/B", none, []⟩] (some "C") = .ok u) ∧
    ((∀ u ∈ ([(⟨"x/A", none, []⟩ : EcsTask), ⟨"x/B", none, []⟩] : List EcsTask),
        lastSegment u.taskArn ≠ "C") →
      ([(⟨"x/A", none, []⟩ : EcsTask), ⟨"x/B", none, []⟩] : List EcsTask) ≠ [] →
      find_task [⟨"x/A", none, []⟩, ⟨"x/B", none, []⟩] (some "C")
        = .error (.taskNotFound "C"
            (joinSorted (([(⟨"x/A", none, []⟩ : EcsTask), ⟨"x/B", none, []⟩]).map
              fun u => lastSegment u.taskArn))) ∧
      (sortStrs (([(⟨"x/A", none, []⟩ : EcsTask), ⟨"x/B", none, []⟩]).map
        fun u => lastSegment u.taskArn)).Sorted (· ≤ ·) ∧
      (sortStrs (([(⟨"x/A", none, []⟩ : EcsTask), ⟨"x/B", none, []⟩]).map
        fun u => lastSegment u.taskArn)).Perm
        (([(⟨"x/A", none, []⟩ : EcsTask), ⟨"x/B", none, []⟩]).map
          fun u => lastSegment u.taskArn)) :=
  C6_requested_id_scan [⟨"x/A", none, []⟩, ⟨"x/B", none, []⟩] "C" (by decide)

/-- C7 witness: a single available container is returned even though the
definition marks only a different, non-running container essential. -/
theorem C7_zero_or_one_container_witness :
    ((⟨"t", none, [⟨"web"⟩]⟩ : EcsTask).containers = [] →
      find_container_name ⟨"t", none, [⟨"web"⟩]⟩ ⟨[⟨"db", true⟩]⟩ none
        = .error .noContainers) ∧
    (∀ c, (⟨"t", none, [⟨"web"⟩]⟩ : EcsTask).containers = [c] →
      find_container_name ⟨"t", none, [⟨"web"⟩]⟩ ⟨[⟨"db", true⟩]⟩ none = .ok c.name) :=
  C7_zero_or_one_container ⟨"t", none, [⟨"web"⟩]⟩ ⟨[⟨"db", true⟩]⟩ (by decide)

/-- C9 witness: the determinism theorem applied at concrete equal
inputs. -/
theorem C9_pure_deterministic_witness :
    find_task [⟨"x/A", none, []⟩] (some "A") = find_task [⟨"x/A", none, []⟩] (some "A") ∧
    find_container_name ⟨"t", none, [⟨"web"⟩]⟩ ⟨[]⟩ none
      = find_container_name ⟨"t", none, [⟨"web"⟩]⟩ ⟨[]⟩ none :=
  C9_pure_deterministic [⟨"x/A", none, []⟩] [⟨"x/A", none, []⟩] (some "A") (some "A")
    ⟨"t", none, [⟨"web"⟩]⟩ ⟨"t", none, [⟨"web"⟩]⟩ ⟨[]⟩ ⟨[]⟩ none none
    rfl rfl rfl rfl rfl
